import Mathlib

/-!
Verification of the AesCrypt repository (src/AesCrypt.py and
src/examples/advanced_usage.py) against its natural-language specification.

The file system is modelled as an association list from path strings to
files.  The external pyAesCrypt library (an external dependency, not part
of the repository sources) is modelled from the specification of the
Key Derivation Unit and Chunked Cipher Engine: an encrypted container
records the salt and the password whose derived keys authenticate it,
decryption with a different password deterministically fails the tag
check, and a failed decryption deletes any partial output.
-/

namespace AesCrypt

/-- Byte content of a file.  `bytes` is plain data; `enc salt password inner`
is an encrypted container.  Modelled from the spec: the container header
stores the salt in the clear, and key derivation is deterministic and
injective in the password, so a container determines which password
decrypts it. -/
inductive ByteContent : Type where
  | bytes (data : List Nat) : ByteContent
  | enc (salt : Nat) (password : String) (inner : ByteContent) : ByteContent
deriving DecidableEq, Repr

/-- On-disk size of a content, in bytes.  Modelled from the spec: the
container is the header (format marker, salt, derivation parameters)
followed by authenticated chunks; the exact byte layout is an
implementation choice, modelled here as a fixed 64-byte overhead. -/
def ByteContent.size : ByteContent → Nat
  | .bytes d => d.length
  | .enc _ _ inner => inner.size + 64

/-- A file on disk: content plus a readability flag (an unreadable file can
still be stat-ed for its size, but opening it for reading raises). -/
structure PFile where
  content : ByteContent
  readable : Bool := true
deriving DecidableEq, Repr

/-- File system state: files keyed by full path, plus the set of directory
paths.  The order of `files` is the directory-enumeration (scandir) order
that `pathlib` globbing reports. -/
structure FS where
  files : List (String × PFile)
  dirs : List String
deriving DecidableEq, Repr

/-- Look up the file stored at path `p`. -/
def FS.lookup (fs : FS) (p : String) : Option PFile :=
  (fs.files.find? (fun e => e.1 == p)).map (fun e => e.2)

/-- Create or overwrite the file at path `p`. -/
def FS.setFile (fs : FS) (p : String) (f : PFile) : FS :=
  ⟨(p, f) :: fs.files.filter (fun e => e.1 != p), fs.dirs⟩

/-- Delete the file at path `p` (os.unlink / os.remove). -/
def FS.erase (fs : FS) (p : String) : FS :=
  ⟨fs.files.filter (fun e => e.1 != p), fs.dirs⟩

/-- `Path.is_file()`: the path names a regular file. -/
def FS.isFile (fs : FS) (p : String) : Bool :=
  (fs.lookup p).isSome

/-- `Path.exists()`: the path names a file or a directory. -/
def pathExists (fs : FS) (p : String) : Bool :=
  (fs.lookup p).isSome || fs.dirs.contains p

/-- Python exceptions relevant to the modelled code. -/
inductive PyError : Type where
  | fileNotFound (path : String)
  | permissionError (path : String)
  | valueError (msg : String)
deriving DecidableEq, Repr

/-- `str(e)`: the message a caught exception is rendered to. -/
def PyError.msg : PyError → String
  | .fileNotFound p => "No such file or directory: " ++ p
  | .permissionError p => "Permission denied: " ++ p
  | .valueError m => m

/-- Modelled from the spec: `pyAesCrypt.encryptFile(inFile, outFile, password)`
(the Chunked Cipher Engine's encrypt side).  Reads the input (raising
FileNotFoundError / PermissionError before the output is touched), then
writes a container carrying a fresh `salt` and authenticated under the keys
derived from `password`. -/
def pyEncryptFile (fs : FS) (salt : Nat) (inFile outFile password : String) :
    FS × Option PyError :=
  match fs.lookup inFile with
  | none => (fs, some (.fileNotFound inFile))
  | some f =>
    if f.readable then
      (fs.setFile outFile ⟨.enc salt password f.content, true⟩, none)
    else
      (fs, some (.permissionError inFile))

/-- Modelled from the spec: `pyAesCrypt.decryptFile(inFile, outFile, password)`
(the Chunked Cipher Engine's decrypt side).  A wrong password
deterministically fails the first block's tag check; on any failure the
partial output file is deleted before the ValueError surfaces. -/
def pyDecryptFile (fs : FS) (inFile outFile password : String) :
    FS × Option PyError :=
  match fs.lookup inFile with
  | none => (fs, some (.fileNotFound inFile))
  | some f =>
    if f.readable then
      match f.content with
      | .bytes _ =>
        (fs.erase outFile,
         some (.valueError "File is corrupted or not an AES Crypt (or pyAesCrypt) file."))
      | .enc _ p inner =>
        if p = password then
          (fs.setFile outFile ⟨inner, true⟩, none)
        else
          (fs.erase outFile,
           some (.valueError "Wrong password (or file is corrupted)."))
    else
      (fs, some (.permissionError inFile))

/-- `cryptFile(action, password, file, output)` from src/AesCrypt.py lines
113-118: the string `"e"` selects `pyAesCrypt.encryptFile`, every other
action string falls into the `else` branch and decrypts.  `salt` stands for
the fresh random salt the library draws for an encryption. -/
def cryptFile (action password file output : String) (salt : Nat) (fs : FS) :
    FS × Option PyError :=
  if action = "e" then
    pyEncryptFile fs salt file output password
  else
    pyDecryptFile fs file output password

/-- Does the string `s` end with the suffix `suf` (Python `str.endswith`)? -/
def strEndsWith (s suf : String) : Bool :=
  if suf.data.length ≤ s.data.length then
    s.data.drop (s.data.length - suf.data.length) == suf.data
  else
    false

/-- All suffixes of a character list, longest first. -/
def charTails : List Char → List (List Char)
  | [] => [[]]
  | c :: cs => (c :: cs) :: charTails cs

/-- Shell-style pattern matching as used by `fnmatch`/`pathlib` globbing:
`*` matches any (possibly empty) run of characters, `?` matches one
character, every other character matches itself. -/
def globMatch (p : List Char) (s : List Char) : Bool :=
  match p with
  | [] => s.isEmpty
  | c :: ps =>
    if c = '*' then
      (charTails s).any (fun t => globMatch ps t)
    else
      match s with
      | [] => false
      | d :: ds => (c == '?' || c == d) && globMatch ps ds

/-- If `p` is a direct child of directory `dir` (one path component below
it), its name relative to `dir`; otherwise `none`. -/
def childNameIn (dir p : String) : Option String :=
  let pre := (dir ++ "/").data
  if p.data.take pre.length = pre then
    let rest := p.data.drop pre.length
    if rest ≠ [] ∧ ¬ rest.contains '/' then some (String.mk rest) else none
  else
    none

/-- Final path component of a character list. -/
def lastComponent (l : List Char) : List Char :=
  (l.reverse.takeWhile (fun c => c != '/')).reverse

/-- If `p` lies strictly below directory `dir` (any depth), its final
component; otherwise `none`.  Used for `Path.rglob`, whose pattern (when
slash-free) is matched against the entry name at any depth. -/
def descendantName (dir p : String) : Option String :=
  let pre := (dir ++ "/").data
  if p.data.take pre.length = pre ∧ p.data.drop pre.length ≠ [] then
    some (String.mk (lastComponent (p.data.drop pre.length)))
  else
    none

/-- `Path(dir).glob(pattern)` / `Path(dir).rglob(pattern)`: every entry
(file or subdirectory) under `dir` whose name matches `pattern`, in the
file-system's enumeration order (the order of `fs.files` then `fs.dirs`);
`pathlib` does not sort. -/
def globEnum (fs : FS) (dir pattern : String) (recursive : Bool) : List String :=
  (fs.files.map (fun e => e.1) ++ fs.dirs).filter (fun p =>
    match (if recursive then descendantName dir p else childNameIn dir p) with
    | some name => globMatch pattern.data name.data
    | none => false)

/-- The manager configuration (`_load_config` defaults, advanced_usage.py
lines 44-50). -/
structure Config where
  default_extension : String := ".aes"
  backup_originals : Bool := false
  verify_integrity : Bool := true
  log_level : String := "INFO"
  max_file_size_mb : Nat := 100
deriving DecidableEq, Repr

/-- The result dictionary produced by one file operation.  Keys that a
variant omits are `none`; `success` is present in every variant. -/
structure OpResult where
  success : Bool
  input_file : Option String := none
  output_file : Option String := none
  original_size : Option Nat := none
  encrypted_size : Option Nat := none
  original_checksum : Option ByteContent := none
  integrity_verified : Option Bool := none
  error : Option String := none
deriving DecidableEq, Repr

/-- `calculate_checksum` (advanced_usage.py lines 71-81).  SHA-256 is
modelled from the spec as an injective digest, so the digest of a file is
its content; a missing or unreadable file is caught internally and yields
`None`. -/
def calculate_checksum (fs : FS) (path : String) : Option ByteContent :=
  match fs.lookup path with
  | none => none
  | some f => if f.readable then some f.content else none

/-- `os.path.getsize`: size in bytes, or an OSError for a missing path
(stat succeeds on an unreadable file). -/
def getsize (fs : FS) (path : String) : Except PyError Nat :=
  match fs.lookup path with
  | none => .error (.fileNotFound path)
  | some f => .ok f.content.size

/-- The failure dictionary built by `encrypt_with_verification`'s except
branch (advanced_usage.py lines 145-150). -/
def failDict (msg input_file output_file : String) : OpResult :=
  { success := false, error := some msg,
    input_file := some input_file, output_file := some output_file }

/-- The verification block of `encrypt_with_verification` (advanced_usage.py
lines 110-131): decrypt the fresh container to `output_file ++
".verify_temp"`, recompute the checksum, compare, unlink the scratch file;
an exception inside the block is caught at line 127 and records
`integrity_verified = False` (without reaching the unlink at line 125).
Returns the `integrity_verified` value and the resulting file system. -/
def verifyStep (cfg : Config) (password output_file : String)
    (original_checksum : Option ByteContent) (salt : Nat) (fs1 : FS) :
    Option Bool × FS :=
  if cfg.verify_integrity && original_checksum.isSome then
    match cryptFile "d" password output_file (output_file ++ ".verify_temp") salt fs1 with
    | (fs2, some _) => (some false, fs2)
    | (fs2, none) =>
      (some (decide (calculate_checksum fs2 (output_file ++ ".verify_temp")
          = original_checksum)),
       fs2.erase (output_file ++ ".verify_temp"))
  else
    (none, fs1)

/-- The success-dictionary construction of `encrypt_with_verification`
(advanced_usage.py lines 133-141); the `os.path.getsize` calls at lines
137-138 sit inside the try block, so their failure is converted by the
except branch at line 143. -/
def finishResult (input_file output_file : String)
    (original_checksum : Option ByteContent) (iv : Option Bool) (fs2 : FS) :
    OpResult × FS :=
  match getsize fs2 input_file, getsize fs2 output_file with
  | .ok s1, .ok s2 =>
    ({ success := true, input_file := some input_file,
       output_file := some output_file,
       original_size := some s1, encrypted_size := some s2,
       original_checksum := original_checksum, integrity_verified := iv }, fs2)
  | .error e, _ => (failDict e.msg input_file output_file, fs2)
  | .ok _, .error e => (failDict e.msg input_file output_file, fs2)

/-- `encrypt_with_verification(password, input_file, output_file=None)`
(advanced_usage.py lines 83-150).  The size probe (line 93) and the size
limit `raise ValueError` (line 95) sit before the try block, so those two
failures escape as `.error`; everything from line 105 on is inside the
try/except and is returned as a result dictionary.  An `.error` outcome
carries the file-system state at the raise (unchanged: no I/O has touched
the output by then). -/
def encrypt_with_verification (cfg : Config) (password input_file : String)
    (outArg : Option String) (salt : Nat) (fs : FS) :
    Except (PyError × FS) (OpResult × FS) :=
  let output_file := outArg.getD (input_file ++ cfg.default_extension)
  match getsize fs input_file with
  | .error e => .error (e, fs)
  | .ok insize =>
    if insize > cfg.max_file_size_mb * 1048576 then
      .error (.valueError "File size exceeds limit", fs)
    else
      let original_checksum :=
        if cfg.verify_integrity then calculate_checksum fs input_file else none
      match cryptFile "e" password input_file output_file salt fs with
      | (fs1, some e) => .ok (failDict e.msg input_file output_file, fs1)
      | (fs1, none) =>
        let vf := verifyStep cfg password output_file original_checksum salt fs1
        .ok (finishResult input_file output_file original_checksum vf.1 vf.2)

/-- The candidate selection of `batch_encrypt_directory` (advanced_usage.py
lines 164-174): glob (or rglob) the pattern, keep regular files whose path
does not already end with the configured extension. -/
def batchCandidates (cfg : Config) (fs : FS) (dir pattern : String)
    (recursive : Bool) : List String :=
  (globEnum fs dir pattern recursive).filter
    (fun f => fs.isFile f && !(strEndsWith f cfg.default_extension))

/-- The per-file loop of `batch_encrypt_directory` (advanced_usage.py lines
178-196): run `encrypt_with_verification` on each candidate in order; an
exception raised by it is caught and recorded as a failure dictionary with
only `success`, `error` and `input_file` keys (lines 191-195), and the loop
continues.  `salts i` is the fresh salt for the i-th encryption.
`batchStep` is one iteration of the loop body (the try/except of lines
180-195); `processBatch` folds it over the candidate list. -/
def batchStep (cfg : Config) (password f : String) (salt : Nat) (fs : FS) :
    OpResult × FS :=
  match encrypt_with_verification cfg password f none salt fs with
  | .ok rf => rf
  | .error (e, fs1) =>
    ({ success := false, error := some e.msg, input_file := some f }, fs1)

def processBatch (cfg : Config) (password : String) (salts : Nat → Nat) :
    List String → Nat → FS → List OpResult × FS
  | [], _, fs => ([], fs)
  | f :: rest, i, fs =>
    let step := batchStep cfg password f (salts i) fs
    let tail := processBatch cfg password salts rest (i + 1) step.2
    (step.1 :: tail.1, tail.2)

/-- `batch_encrypt_directory(directory_path, password, pattern, recursive)`
(advanced_usage.py lines 152-197): raises FileNotFoundError when the root
does not exist, otherwise enumerates candidates once and folds the per-file
loop over them. -/
def batch_encrypt_directory (cfg : Config) (directory_path password pattern : String)
    (recursive : Bool) (salts : Nat → Nat) (fs : FS) :
    Except (PyError × FS) (List OpResult × FS) :=
  if pathExists fs directory_path then
    .ok (processBatch cfg password salts
      (batchCandidates cfg fs directory_path pattern recursive) 0 fs)
  else
    .error (.fileNotFound ("Directory not found: " ++ directory_path), fs)

/-- The aggregate report record (`generate_report`'s dictionary, minus the
timestamp and its serialization to a JSON file, which are I/O out of the
modelled scope). -/
structure Report where
  total_files : Nat
  successful : Nat
  failed : Nat
  total_original_size : Nat
  total_encrypted_size : Nat
  operations : List OpResult
deriving DecidableEq, Repr

/-- `generate_report(results)` (advanced_usage.py lines 199-215):
`r.get("success", False)` is `r.success` (the key is always present);
`r.get("original_size", 0)` / `r.get("encrypted_size", 0)` default a
missing size to 0. -/
def generate_report (results : List OpResult) : Report :=
  { total_files := results.length
    successful := (results.filter (fun r => r.success)).length
    failed := (results.filter (fun r => !r.success)).length
    total_original_size :=
      ((results.filter (fun r => r.success)).map
        (fun r => r.original_size.getD 0)).sum
    total_encrypted_size :=
      ((results.filter (fun r => r.success)).map
        (fun r => r.encrypted_size.getD 0)).sum
    operations := results }

/-- Final file-system state of an operation, whether it returned or
raised. -/
def finalState : Except (PyError × FS) (OpResult × FS) → FS
  | .ok (_, st) => st
  | .error (_, st) => st

/-- The successful part of a batch outcome, if any. -/
def okPart : Except (PyError × FS) (List OpResult × FS) → Option (List OpResult × FS)
  | .ok x => some x
  | .error _ => none

/-- Fixture: a file system with one two-byte readable file. -/
def fsOne : FS := ⟨[("in.txt", ⟨.bytes [104, 105], true⟩)], []⟩

/-- Fixture: a file system with one zero-length readable file. -/
def fsEmptyFile : FS := ⟨[("empty.txt", ⟨.bytes [], true⟩)], []⟩

/-- Fixture: a file system with one one-byte readable file. -/
def fsTiny : FS := ⟨[("t.bin", ⟨.bytes [7], true⟩)], []⟩

/-- Fixture: a directory with two readable files, one unreadable file, and a
pre-existing encrypted output. -/
def fsBatch : FS :=
  ⟨[("d/a.txt", ⟨.bytes [1, 2], true⟩),
    ("d/u.txt", ⟨.bytes [3], false⟩),
    ("d/b.txt", ⟨.bytes [4, 5, 6], true⟩),
    ("d/a.txt.aes", ⟨.bytes [9], true⟩)], ["d"]⟩

/-- Fixture: the batch-with-exclusion scenario directory, with a
subdirectory thrown in to exercise the regular-file filter. -/
def fsC7 : FS :=
  ⟨[("d/a.txt", ⟨.bytes [1], true⟩),
    ("d/b.txt", ⟨.bytes [2], true⟩),
    ("d/a.txt.aes", ⟨.bytes [9], true⟩)], ["d", "d/sub"]⟩

/-- Fixture: a directory whose enumeration order is deliberately not
lexicographic. -/
def fsPair : FS :=
  ⟨[("d/b.txt", ⟨.bytes [1], true⟩),
    ("d/a.txt", ⟨.bytes [2], true⟩)], ["d"]⟩

/-! Helper lemmas about the file-system model. -/

theorem find_filter_ne (p q : String) (h : q ≠ p) (l : List (String × PFile)) :
    (l.filter (fun e => e.1 != p)).find? (fun e => e.1 == q)
      = l.find? (fun e => e.1 == q) := by
  induction l with
  | nil => rfl
  | cons a t ih =>
    have hqp : (q == p) = false := beq_eq_false_iff_ne.mpr h
    by_cases ha : a.1 = p
    · have hpq : (p == q) = false := beq_eq_false_iff_ne.mpr (fun hh => h hh.symm)
      simp [List.filter_cons, ha, hpq, ih]
    · by_cases haq : a.1 = q
      · have hne : (q != p) = true := by simp [bne, hqp]
        simp only [List.filter_cons, haq, hne, if_pos rfl]
        simp [haq]
      · simp [List.filter_cons, ha, haq, ih]

theorem lookup_setFile_self (fs : FS) (p : String) (f : PFile) :
    (fs.setFile p f).lookup p = some f := by
  simp [FS.lookup, FS.setFile, List.find?_cons]

theorem lookup_setFile_ne (fs : FS) (p q : String) (f : PFile) (h : q ≠ p) :
    (fs.setFile p f).lookup q = fs.lookup q := by
  have hpq : (p == q) = false := by
    simp only [beq_eq_false_iff_ne]
    exact fun hh => h hh.symm
  simp [FS.lookup, FS.setFile, List.find?_cons, hpq, find_filter_ne p q h]

theorem lookup_erase_self (fs : FS) (p : String) :
    (fs.erase p).lookup p = none := by
  have : (fs.files.filter (fun e => e.1 != p)).find? (fun e => e.1 == p) = none := by
    apply List.find?_eq_none.mpr
    intro x hx
    have hmem := (List.mem_filter.mp hx).2
    simpa using hmem
  simp [FS.erase, FS.lookup, this]

theorem append_verify_temp_ne (s : String) : s ++ ".verify_temp" ≠ s := by
  intro h
  have hl := congrArg String.length h
  have h12 : (".verify_temp" : String).length = 12 := rfl
  rw [String.length_append, h12] at hl
  omega

/-! Helper lemmas about the modelled pyAesCrypt operations. -/

theorem pyEncryptFile_err_state (fs : FS) (salt : Nat) (a b p : String) (e : PyError)
    (h : (pyEncryptFile fs salt a b p).2 = some e) :
    (pyEncryptFile fs salt a b p).1 = fs := by
  cases hla : fs.lookup a with
  | none => simp [pyEncryptFile, hla]
  | some f =>
    by_cases hr : f.readable
    · rw [pyEncryptFile, hla] at h
      simp [hr] at h
    · simp [pyEncryptFile, hla, hr]

theorem pyEncryptFile_ok_state (fs : FS) (salt : Nat) (a b p : String)
    (h : (pyEncryptFile fs salt a b p).2 = none) :
    ∃ f, fs.lookup a = some f ∧ f.readable = true ∧
      (pyEncryptFile fs salt a b p).1
        = fs.setFile b ⟨.enc salt p f.content, true⟩ := by
  cases hla : fs.lookup a with
  | none => rw [pyEncryptFile, hla] at h; simp at h
  | some f =>
    by_cases hr : f.readable
    · exact ⟨f, rfl, hr, by simp [pyEncryptFile, hla, hr]⟩
    · rw [pyEncryptFile, hla] at h
      simp [hr] at h

theorem pyDecryptFile_err_state (fs : FS) (a b p : String) (e : PyError)
    (hb : fs.lookup b = none)
    (h : (pyDecryptFile fs a b p).2 = some e) :
    ((pyDecryptFile fs a b p).1).lookup b = none := by
  cases hla : fs.lookup a with
  | none => simp [pyDecryptFile, hla, hb]
  | some f =>
    by_cases hr : f.readable
    · cases hc : f.content with
      | bytes d => simp [pyDecryptFile, hla, hr, hc, lookup_erase_self]
      | enc s q inner =>
        by_cases hq : q = p
        · rw [pyDecryptFile, hla] at h
          simp [hr, hc, hq] at h
        · simp [pyDecryptFile, hla, hr, hc, hq, lookup_erase_self]
    · simp [pyDecryptFile, hla, hr, hb]

/-! Helper lemmas about the single-file orchestrator. -/

theorem finishResult_state (input output : String) (oc : Option ByteContent)
    (iv : Option Bool) (fs2 : FS) :
    (finishResult input output oc iv fs2).2 = fs2 := by
  rw [finishResult]
  split <;> rfl

theorem finishResult_shape (input output : String) (oc : Option ByteContent)
    (iv : Option Bool) (fs2 : FS) :
    (finishResult input output oc iv fs2).1.input_file = some input ∧
    ((finishResult input output oc iv fs2).1.success = true ∨
     (finishResult input output oc iv fs2).1.error.isSome = true) := by
  rw [finishResult]
  split <;> simp [failDict]

theorem verifyStep_scratch (cfg : Config) (P output : String)
    (oc : Option ByteContent) (salt : Nat) (fs1 : FS)
    (h1 : fs1.lookup (output ++ ".verify_temp") = none) :
    ((verifyStep cfg P output oc salt fs1).2).lookup (output ++ ".verify_temp")
      = none := by
  rw [verifyStep]
  split
  · split
    · next fs2 e heq =>
      have hd : cryptFile "d" P output (output ++ ".verify_temp") salt fs1
          = pyDecryptFile fs1 output (output ++ ".verify_temp") P := by
        rw [cryptFile, if_neg (by decide)]
      rw [hd] at heq
      have h2 : (pyDecryptFile fs1 output (output ++ ".verify_temp") P).2 = some e := by
        rw [heq]
      have := pyDecryptFile_err_state fs1 output (output ++ ".verify_temp") P e h1 h2
      rwa [heq] at this
    · simp [lookup_erase_self]
  · simpa using h1

theorem evw_ok_shape (cfg : Config) (P input : String) (outArg : Option String)
    (salt : Nat) (fs : FS) (r : OpResult) (fs2 : FS)
    (h : encrypt_with_verification cfg P input outArg salt fs = .ok (r, fs2)) :
    r.input_file = some input ∧
    (r.success = true ∨ r.error.isSome = true) := by
  simp only [encrypt_with_verification] at h
  split at h
  · cases h
  · split at h
    · cases h
    · split at h
      · next fs1 e heq =>
        have h1 : failDict e.msg input (outArg.getD (input ++ cfg.default_extension)) = r := by
          injection h with h0
          exact congrArg Prod.fst h0
        rw [← h1]
        simp [failDict]
      · injection h with h0
        have hr : _ = r := congrArg Prod.fst h0
        rw [← hr]
        exact finishResult_shape _ _ _ _ _

/-! Helper lemmas about the batch orchestrator. -/

theorem batchStep_input (cfg : Config) (P f : String) (salt : Nat) (fs : FS) :
    (batchStep cfg P f salt fs).1.input_file = some f := by
  rw [batchStep]
  split
  · next rf hv =>
    exact (evw_ok_shape cfg P f none salt fs rf.1 rf.2 (by rw [hv])).1
  · next e fs1 hv => rfl

theorem processBatch_spec (cfg : Config) (P : String) (salts : Nat → Nat)
    (l : List String) :
    ∀ (i : Nat) (fs : FS),
      ((processBatch cfg P salts l i fs).1).length = l.length ∧
      ((processBatch cfg P salts l i fs).1).map (fun r => r.input_file)
        = l.map some := by
  induction l with
  | nil => intro i fs; exact ⟨rfl, rfl⟩
  | cons f rest ih =>
    intro i fs
    obtain ⟨ih1, ih2⟩ := ih (i + 1) (batchStep cfg P f (salts i) fs).2
    simp only [processBatch, List.length_cons, List.map_cons]
    exact ⟨by rw [ih1], by rw [ih2, batchStep_input]⟩

theorem filter_length_add (l : List OpResult) :
    (l.filter (fun r => r.success)).length
      + (l.filter (fun r => !r.success)).length = l.length := by
  induction l with
  | nil => rfl
  | cons a t ih =>
    by_cases ha : a.success
    · simp only [List.filter_cons, ha]
      simp
      omega
    · simp only [List.filter_cons]
      simp [ha]
      omega

theorem sum_map_filter_success (l : List OpResult) (g : OpResult → Nat) :
    ((l.filter (fun r => r.success)).map g).sum
      = (l.map (fun r => if r.success then g r else 0)).sum := by
  induction l with
  | nil => rfl
  | cons a t ih =>
    by_cases ha : a.success
    · simp [List.filter_cons, ha, ih]
    · simp [List.filter_cons, ha, ih]

/-! The claims. -/

/-- C1: for every byte content C (including the zero-length content) and
every password P, `cryptFile "e"` on the file holding C succeeds, and
`cryptFile "d"` with the same password on the produced container succeeds
and writes a file whose bytes are exactly C. -/
theorem c1_cryptFile_roundtrip (fs : FS) (C : List Nat) (P fin fout out2 : String)
    (salt salt2 : Nat) (h : fs.lookup fin = some ⟨.bytes C, true⟩) :
    (cryptFile "e" P fin fout salt fs).2 = none ∧
    (cryptFile "d" P fout out2 salt2 (cryptFile "e" P fin fout salt fs).1).2 = none ∧
    ((cryptFile "d" P fout out2 salt2 (cryptFile "e" P fin fout salt fs).1).1).lookup out2
      = some ⟨.bytes C, true⟩ := by
  have he : cryptFile "e" P fin fout salt fs
      = (fs.setFile fout ⟨.enc salt P (.bytes C), true⟩, none) := by
    rw [cryptFile, if_pos rfl]
    simp [pyEncryptFile, h]
  have hd : cryptFile "d" P fout out2 salt2
        (fs.setFile fout ⟨.enc salt P (.bytes C), true⟩)
      = ((fs.setFile fout ⟨.enc salt P (.bytes C), true⟩).setFile out2
          ⟨.bytes C, true⟩, none) := by
    rw [cryptFile, if_neg (by decide)]
    simp [pyDecryptFile, lookup_setFile_self]
  rw [he]
  exact ⟨rfl, by rw [hd], by rw [hd]; exact lookup_setFile_self _ _ _⟩

theorem c1_cryptFile_roundtrip_witness :
    fsEmptyFile.lookup "empty.txt" = some ⟨.bytes [], true⟩ ∧
    ((cryptFile "e" "p" "empty.txt" "empty.txt.aes" 0 fsEmptyFile).2 = none ∧
     (cryptFile "d" "p" "empty.txt.aes" "out.txt" 1
        (cryptFile "e" "p" "empty.txt" "empty.txt.aes" 0 fsEmptyFile).1).2 = none ∧
     ((cryptFile "d" "p" "empty.txt.aes" "out.txt" 1
        (cryptFile "e" "p" "empty.txt" "empty.txt.aes" 0 fsEmptyFile).1).1).lookup "out.txt"
       = some ⟨.bytes [], true⟩) :=
  ⟨by decide,
   c1_cryptFile_roundtrip fsEmptyFile [] "p" "empty.txt" "empty.txt.aes" "out.txt" 0 1
     (by decide)⟩

/-- C2: decrypting a container produced under password P1 with a different
password P2 fails with the wrong-password ValueError and leaves no file at
the output path (any partial output is deleted before the error
surfaces). -/
theorem c2_wrong_password_detected (fs : FS) (C : List Nat)
    (P1 P2 fin fout out2 : String) (salt salt2 : Nat)
    (h : fs.lookup fin = some ⟨.bytes C, true⟩) (hne : P1 ≠ P2) :
    (cryptFile "d" P2 fout out2 salt2 (cryptFile "e" P1 fin fout salt fs).1).2
      = some (.valueError "Wrong password (or file is corrupted).") ∧
    ((cryptFile "d" P2 fout out2 salt2 (cryptFile "e" P1 fin fout salt fs).1).1).lookup out2
      = none := by
  have he : cryptFile "e" P1 fin fout salt fs
      = (fs.setFile fout ⟨.enc salt P1 (.bytes C), true⟩, none) := by
    rw [cryptFile, if_pos rfl]
    simp [pyEncryptFile, h]
  have hd : cryptFile "d" P2 fout out2 salt2
        (fs.setFile fout ⟨.enc salt P1 (.bytes C), true⟩)
      = ((fs.setFile fout ⟨.enc salt P1 (.bytes C), true⟩).erase out2,
         some (.valueError "Wrong password (or file is corrupted).")) := by
    rw [cryptFile, if_neg (by decide)]
    simp [pyDecryptFile, lookup_setFile_self, hne]
  rw [he]
  exact ⟨by rw [hd], by rw [hd]; exact lookup_erase_self _ _⟩

theorem c2_wrong_password_detected_witness :
    (fsOne.lookup "in.txt" = some ⟨.bytes [104, 105], true⟩ ∧ ("a" : String) ≠ "b") ∧
    ((cryptFile "d" "b" "c.aes" "out.txt" 1
        (cryptFile "e" "a" "in.txt" "c.aes" 0 fsOne).1).2
      = some (.valueError "Wrong password (or file is corrupted).") ∧
     ((cryptFile "d" "b" "c.aes" "out.txt" 1
        (cryptFile "e" "a" "in.txt" "c.aes" 0 fsOne).1).1).lookup "out.txt" = none) :=
  ⟨⟨by decide, by decide⟩,
   c2_wrong_password_detected fsOne [104, 105] "a" "b" "in.txt" "c.aes" "out.txt" 0 1
     (by decide) (by decide)⟩

/-- C10: any action string other than exactly "e" makes `cryptFile` run the
decryption branch (`pyAesCrypt.decryptFile`); only the exact string "e"
selects encryption. -/
theorem c10_action_dispatch (action P f o : String) (salt : Nat) (fs : FS)
    (h : action ≠ "e") :
    cryptFile action P f o salt fs = pyDecryptFile fs f o P ∧
    cryptFile "e" P f o salt fs = pyEncryptFile fs salt f o P :=
  ⟨by rw [cryptFile, if_neg h], by rw [cryptFile, if_pos rfl]⟩

theorem c10_action_dispatch_witness :
    ("encrypt" : String) ≠ "e" ∧
    (cryptFile "encrypt" "p" "f" "o" 0 fsOne = pyDecryptFile fsOne "f" "o" "p" ∧
     cryptFile "e" "p" "f" "o" 0 fsOne = pyEncryptFile fsOne 0 "f" "o" "p") :=
  ⟨by decide, c10_action_dispatch "encrypt" "p" "f" "o" 0 fsOne (by decide)⟩

/-- C5: with a configured cap of `max_file_size_mb` megabytes (an effective
byte cap N = max_file_size_mb * 1048576), encrypting an existing input of
N + 1 bytes raises the size-limit ValueError before any I/O is attempted:
the whole file system, and in particular the output path, is unchanged. -/
theorem c5_size_limit_guard (cfg : Config) (fs : FS) (f : PFile) (P input : String)
    (outArg : Option String) (salt : Nat)
    (hin : fs.lookup input = some f)
    (hsz : f.content.size = cfg.max_file_size_mb * 1048576 + 1) :
    encrypt_with_verification cfg P input outArg salt fs
      = .error (.valueError "File size exceeds limit", fs) := by
  have hg : getsize fs input = .ok f.content.size := by simp [getsize, hin]
  simp only [encrypt_with_verification, hg]
  rw [hsz, if_pos (Nat.lt_succ_self _)]

theorem c5_size_limit_guard_witness :
    (fsTiny.lookup "t.bin" = some ⟨.bytes [7], true⟩ ∧
     (ByteContent.bytes [7]).size
       = ({ max_file_size_mb := 0 } : Config).max_file_size_mb * 1048576 + 1) ∧
    encrypt_with_verification ({ max_file_size_mb := 0 } : Config) "p" "t.bin" none 0 fsTiny
      = .error (.valueError "File size exceeds limit", fsTiny) :=
  ⟨⟨by decide, by decide⟩,
   c5_size_limit_guard ({ max_file_size_mb := 0 } : Config) fsTiny ⟨.bytes [7], true⟩
     "p" "t.bin" none 0 (by decide) (by decide)⟩

/-- C4 counterexample: `encrypt_with_verification` does raise past its own
boundary on the two pre-check failures, contradicting the claim — a missing
input file makes the size probe's OSError escape, and an input over the
size limit makes the `raise ValueError` escape (both sit before the
function's try block). -/
theorem c4_counterexample :
    encrypt_with_verification ({} : Config) "p" "missing.txt" none 0 fsOne
      = .error (.fileNotFound "missing.txt", fsOne) ∧
    encrypt_with_verification ({ max_file_size_mb := 0 } : Config) "p" "t.bin" none 0 fsTiny
      = .error (.valueError "File size exceeds limit", fsTiny) :=
  ⟨rfl, rfl⟩

/-- C4 (amended): provided the input file exists (the size probe succeeds)
and its size is within the configured limit, every branch of
`encrypt_with_verification` returns a result dictionary carrying the input
path — failures become a `success = false` result with the error message
set — and no exception escapes. -/
theorem c4_result_on_every_branch (cfg : Config) (P input : String)
    (outArg : Option String) (salt : Nat) (fs : FS) (n : Nat)
    (hg : getsize fs input = .ok n)
    (hle : n ≤ cfg.max_file_size_mb * 1048576) :
    ∃ r fsEnd,
      encrypt_with_verification cfg P input outArg salt fs = .ok (r, fsEnd) ∧
      r.input_file = some input ∧
      (r.success = true ∨ r.error.isSome = true) := by
  simp only [encrypt_with_verification, hg]
  rw [if_neg (by omega)]
  split
  · next fs1 e heq =>
    exact ⟨_, _, rfl, rfl, Or.inr rfl⟩
  · next fs1 heq =>
    exact ⟨_, _, rfl, (finishResult_shape _ _ _ _ _).1, (finishResult_shape _ _ _ _ _).2⟩

theorem c4_result_on_every_branch_witness :
    (getsize fsOne "in.txt" = .ok 2 ∧
     2 ≤ ({} : Config).max_file_size_mb * 1048576) ∧
    (∃ r fsEnd,
      encrypt_with_verification ({} : Config) "p" "in.txt" none 0 fsOne = .ok (r, fsEnd) ∧
      r.input_file = some "in.txt" ∧
      (r.success = true ∨ r.error.isSome = true)) :=
  ⟨⟨rfl, by decide⟩,
   c4_result_on_every_branch ({} : Config) "p" "in.txt" none 0 fsOne 2
     rfl (by decide)⟩

/-- C9: the generated report satisfies: `total_files` is the number of
results, `successful` counts the results with `success = true`, `failed`
counts those with `success = false` (so `successful + failed = total`), and
the two size totals sum the corresponding sizes over successful results
only — every failed entry contributes exactly zero to both sums. -/
theorem c9_report_totals (results : List OpResult) :
    (generate_report results).total_files = results.length ∧
    (generate_report results).successful = results.countP (fun r => r.success) ∧
    (generate_report results).failed = results.countP (fun r => !r.success) ∧
    (generate_report results).successful + (generate_report results).failed
      = (generate_report results).total_files ∧
    (generate_report results).total_original_size
      = (results.map (fun r => if r.success then r.original_size.getD 0 else 0)).sum ∧
    (generate_report results).total_encrypted_size
      = (results.map (fun r => if r.success then r.encrypted_size.getD 0 else 0)).sum :=
  ⟨rfl,
   (List.countP_eq_length_filter _ _).symm,
   (List.countP_eq_length_filter _ _).symm,
   filter_length_add results,
   sum_map_filter_success results _,
   sum_map_filter_success results _⟩

/-- C7: the batch orchestrator's candidate set is exactly the glob matches
that are regular files and do not already carry the configured extension;
on the scenario directory holding a.txt, b.txt and a.txt.aes, exactly a.txt
and b.txt are selected — with pattern `*.txt` (a.txt.aes already fails the
pattern) and also with pattern `*` (a.txt.aes matches but is excluded by
the extension filter, and the subdirectory is excluded as a non-file). -/
theorem c7_extension_exclusion :
    (∀ (cfg : Config) (fs : FS) (dir pattern f : String) (recursive : Bool),
      f ∈ batchCandidates cfg fs dir pattern recursive ↔
        (f ∈ globEnum fs dir pattern recursive ∧ fs.isFile f = true ∧
         strEndsWith f cfg.default_extension = false)) ∧
    batchCandidates {} fsC7 "d" "*.txt" false = ["d/a.txt", "d/b.txt"] ∧
    batchCandidates {} fsC7 "d" "*" false = ["d/a.txt", "d/b.txt"] := by
  refine ⟨?_, by decide, by decide⟩
  intro cfg fs dir pattern f recursive
  simp [batchCandidates, List.mem_filter, and_assoc]

/-- C3: whenever the batch root exists, the batch call returns a result
list instead of raising, with exactly one result per candidate in order
(one failing file is recorded as its one failed entry and every subsequent
candidate is still processed), and the derived report satisfies
`total = file_count` and `successful = file_count - failed`. -/
theorem c3_batch_isolation (cfg : Config) (dir P pattern : String)
    (recursive : Bool) (salts : Nat → Nat) (fs : FS)
    (hdir : pathExists fs dir = true) :
    ∃ results fsEnd,
      batch_encrypt_directory cfg dir P pattern recursive salts fs
        = .ok (results, fsEnd) ∧
      results.length = (batchCandidates cfg fs dir pattern recursive).length ∧
      results.map (fun r => r.input_file)
        = (batchCandidates cfg fs dir pattern recursive).map some ∧
      (generate_report results).total_files = results.length ∧
      (generate_report results).successful + (generate_report results).failed
        = (generate_report results).total_files ∧
      (generate_report results).successful
        = (generate_report results).total_files - (generate_report results).failed := by
  obtain ⟨hlen, hmap⟩ :=
    processBatch_spec cfg P salts (batchCandidates cfg fs dir pattern recursive) 0 fs
  refine ⟨(processBatch cfg P salts (batchCandidates cfg fs dir pattern recursive) 0 fs).1,
          (processBatch cfg P salts (batchCandidates cfg fs dir pattern recursive) 0 fs).2,
          ?_, hlen, hmap, rfl, filter_length_add _, ?_⟩
  · rw [batch_encrypt_directory, if_pos hdir]
  · have h1 := filter_length_add
      ((processBatch cfg P salts (batchCandidates cfg fs dir pattern recursive) 0 fs).1)
    simp only [generate_report]
    omega

theorem c3_batch_isolation_witness :
    pathExists fsBatch "d" = true ∧
    (∃ results fsEnd,
      batch_encrypt_directory {} "d" "p" "*.txt" false (fun _ => 0) fsBatch
        = .ok (results, fsEnd) ∧
      results.length = (batchCandidates {} fsBatch "d" "*.txt" false).length ∧
      results.map (fun r => r.input_file)
        = (batchCandidates {} fsBatch "d" "*.txt" false).map some ∧
      (generate_report results).total_files = results.length ∧
      (generate_report results).successful + (generate_report results).failed
        = (generate_report results).total_files ∧
      (generate_report results).successful
        = (generate_report results).total_files - (generate_report results).failed) ∧
    (okPart (batch_encrypt_directory {} "d" "p" "*.txt" false (fun _ => 0) fsBatch)).map
        (fun rf => ((generate_report rf.1).total_files,
                    (generate_report rf.1).successful,
                    (generate_report rf.1).failed,
                    (rf.1.filter (fun r => !r.success)).map (fun r => r.input_file)))
      = some (3, 2, 1, [some "d/u.txt"]) :=
  ⟨by decide,
   c3_batch_isolation {} "d" "p" "*.txt" false (fun _ => 0) fsBatch (by decide),
   by decide⟩

/-- C8 counterexample: on a directory whose enumeration lists d/b.txt before
d/a.txt, the batch report lists the operation on d/b.txt first, although
d/a.txt precedes d/b.txt lexicographically — the code never sorts, so the
iteration order is not lexicographic by path. -/
theorem c8_counterexample :
    (okPart (batch_encrypt_directory {} "d" "p" "*.txt" false (fun _ => 0) fsPair)).map
        (fun rf => rf.1.map (fun r => r.input_file))
      = some [some "d/b.txt", some "d/a.txt"] ∧
    "d/a.txt".data < "d/b.txt".data ∧
    [some "d/b.txt", some "d/a.txt"] ≠ [some "d/a.txt", some "d/b.txt"] :=
  ⟨by decide, by decide, by decide⟩

/-- C8 (amended): the batch orchestrator iterates the candidates in the
order the glob enumeration returned them and preserves that order in the
result list, so two runs over the same file set with the same enumeration
order produce reports listing the per-file operations identically; the
order is the file system's enumeration order, not a lexicographic sort. -/
theorem c8_order_follows_enumeration (cfg : Config) (dir P pattern : String)
    (recursive : Bool) (salts : Nat → Nat) (fs : FS)
    (hdir : pathExists fs dir = true) :
    ∃ results fsEnd,
      batch_encrypt_directory cfg dir P pattern recursive salts fs
        = .ok (results, fsEnd) ∧
      results.map (fun r => r.input_file)
        = (batchCandidates cfg fs dir pattern recursive).map some := by
  obtain ⟨hlen, hmap⟩ :=
    processBatch_spec cfg P salts (batchCandidates cfg fs dir pattern recursive) 0 fs
  exact ⟨(processBatch cfg P salts (batchCandidates cfg fs dir pattern recursive) 0 fs).1,
         (processBatch cfg P salts (batchCandidates cfg fs dir pattern recursive) 0 fs).2,
         by rw [batch_encrypt_directory, if_pos hdir], hmap⟩

theorem c8_order_follows_enumeration_witness :
    pathExists fsPair "d" = true ∧
    (∃ results fsEnd,
      batch_encrypt_directory {} "d" "p" "*.txt" false (fun _ => 0) fsPair
        = .ok (results, fsEnd) ∧
      results.map (fun r => r.input_file)
        = (batchCandidates {} fsPair "d" "*.txt" false).map some) :=
  ⟨by decide,
   c8_order_follows_enumeration {} "d" "p" "*.txt" false (fun _ => 0) fsPair (by decide)⟩

/-- C6: for an encrypt operation with integrity verification enabled,
starting from a state with no file at the scratch path, no scratch file
remains after the operation on any exit path — whether the operation
raises at a pre-check, fails to encrypt, verifies successfully, or the
verification decrypt fails (the failed decrypt removes its own partial
output before the inner except branch records `integrity_verified =
False`). -/
theorem c6_scratch_cleanup (cfg : Config) (P input : String)
    (outArg : Option String) (salt : Nat) (fs : FS)
    (hv : cfg.verify_integrity = true)
    (h0 : fs.lookup ((outArg.getD (input ++ cfg.default_extension)) ++ ".verify_temp")
        = none) :
    (finalState (encrypt_with_verification cfg P input outArg salt fs)).lookup
      ((outArg.getD (input ++ cfg.default_extension)) ++ ".verify_temp") = none := by
  simp only [encrypt_with_verification]
  split
  · simpa [finalState] using h0
  · split
    · simpa [finalState] using h0
    · split
      · next fs1 e heq =>
        have hce : cryptFile "e" P input (outArg.getD (input ++ cfg.default_extension)) salt fs
            = pyEncryptFile fs salt input (outArg.getD (input ++ cfg.default_extension)) P := by
          rw [cryptFile, if_pos rfl]
        rw [hce] at heq
        have h2 : (pyEncryptFile fs salt input
            (outArg.getD (input ++ cfg.default_extension)) P).2 = some e := by rw [heq]
        have h1 := pyEncryptFile_err_state fs salt input
          (outArg.getD (input ++ cfg.default_extension)) P e h2
        rw [heq] at h1
        have h1' : fs1 = fs := h1
        simpa [finalState, h1'] using h0
      · next fs1 heq =>
        have hce : cryptFile "e" P input (outArg.getD (input ++ cfg.default_extension)) salt fs
            = pyEncryptFile fs salt input (outArg.getD (input ++ cfg.default_extension)) P := by
          rw [cryptFile, if_pos rfl]
        rw [hce] at heq
        have h2 : (pyEncryptFile fs salt input
            (outArg.getD (input ++ cfg.default_extension)) P).2 = none := by rw [heq]
        obtain ⟨f, hf, hr, h1⟩ := pyEncryptFile_ok_state fs salt input
          (outArg.getD (input ++ cfg.default_extension)) P h2
        rw [heq] at h1
        have h1' : fs1 = _ := h1
        have hscr : fs1.lookup
            ((outArg.getD (input ++ cfg.default_extension)) ++ ".verify_temp") = none := by
          rw [h1', lookup_setFile_ne _ _ _ _ (append_verify_temp_ne _)]
          exact h0
        show ((finishResult input (outArg.getD (input ++ cfg.default_extension)) _ _ _).2).lookup _ = none
        rw [finishResult_state]
        exact verifyStep_scratch cfg P (outArg.getD (input ++ cfg.default_extension)) _ salt fs1 hscr

theorem c6_scratch_cleanup_witness :
    (({} : Config).verify_integrity = true ∧
     fsOne.lookup
       (((none : Option String).getD ("in.txt" ++ ({} : Config).default_extension))
         ++ ".verify_temp") = none) ∧
    (finalState (encrypt_with_verification ({} : Config) "p" "in.txt" none 0 fsOne)).lookup
      (((none : Option String).getD ("in.txt" ++ ({} : Config).default_extension))
        ++ ".verify_temp") = none :=
  ⟨⟨by decide, by decide⟩,
   c6_scratch_cleanup ({} : Config) "p" "in.txt" none 0 fsOne (by decide) (by decide)⟩

end AesCrypt
